import Mathlib

/-!
Verification of the matching and reconciliation engine of the vinyl-list
repository.  Python sources are embedded shallowly: dictionaries become
structures, `None` becomes `Option`, remote HTTP endpoints become explicit
oracles or state-passing functions, and Python truthiness is modelled
explicitly where the code relies on it.
-/

namespace VinylList

/-! ### Basic string machinery shared by the embeddings

Python's `x in s` substring test, `str.strip`, `str.lower` and digit
parsing, modelled on `List Char`. -/

/-- Substring containment: `containsSub pat hay` models Python `pat in hay`.
The empty pattern is contained in every string, as in Python. -/
def containsSub (pat : List Char) : List Char → Bool
  | [] => pat.isEmpty
  | c :: t => pat.isPrefixOf (c :: t) || containsSub pat t

/-- Substring test on strings, models Python `pat in s`. -/
def strContains (s pat : String) : Bool :=
  containsSub pat.data s.data

/-- ASCII lowercasing of one character, the effect of Python `str.lower`
on the ASCII range. -/
def lowerChar (c : Char) : Char :=
  if 65 ≤ c.toNat ∧ c.toNat ≤ 90 then Char.ofNat (c.toNat + 32) else c

/-- Lowercase a whole string (Python `s.lower()`). -/
def lowerStr (s : String) : String :=
  String.mk (s.data.map lowerChar)

/-- Python's `str.strip` whitespace set. -/
def isPySpace (c : Char) : Bool :=
  c = ' ' || c = '\t' || c = '\n' || c = '\r' || c = '\x0b' || c = '\x0c'

/-- Python `s.strip()`: drop leading and trailing whitespace. -/
def pyStrip (s : String) : String :=
  String.mk (((s.data.dropWhile isPySpace).reverse.dropWhile isPySpace).reverse)

/-- Boolean membership of a string in a list, by decidable equality
(kernel-reducible, unlike the `BEq`-based `List.contains`). -/
def strMem (u : String) (l : List String) : Bool :=
  l.any (fun v => u = v)

theorem strMem_iff (u : String) (l : List String) : strMem u l = true ↔ u ∈ l := by
  simp only [strMem, List.any_eq_true, decide_eq_true_eq]
  constructor
  · rintro ⟨v, hv, rfl⟩
    exact hv
  · intro h
    exact ⟨u, h, rfl⟩

/-- Split a character list at the first occurrence of the (nonempty)
pattern: the part before and the part strictly after, or `none` when the
pattern does not occur. -/
def splitOnFirst (pat : List Char) : List Char → Option (List Char × List Char)
  | [] => none
  | c :: t =>
    if pat.isPrefixOf (c :: t) then some ([], (c :: t).drop pat.length)
    else
      match splitOnFirst pat t with
      | some (a, b) => some (c :: a, b)
      | none => none

/-- Numeric value of a list of decimal digit characters (Python `int` on a
digit string). -/
def digitsVal (ds : List Char) : Nat :=
  ds.foldl (fun n c => n * 10 + (c.toNat - 48)) 0

/-! ### helpers.confidence_bucket (src/helpers.py lines 127-144) -/

/-- Embedding of `helpers.confidence_bucket`: the if-chain is copied branch
for branch from the source. -/
def confidence_bucket (method : String) (has_discogs_candidates is_vinyl is_us : Bool) : String :=
  if method = "release_url" ∧ is_vinyl = true ∧ is_us = true then "high"
  else if method = "master_url" ∧ is_vinyl = true ∧ is_us = true then "medium"
  else if method = "master_url" ∧ is_vinyl = true then "medium"
  else if method = "search_fallback" ∧ is_vinyl = true ∧ is_us = true ∧ has_discogs_candidates = true then "low"
  else if method = "search_fallback" ∧ is_vinyl = true then "very_low"
  else if method = "search_fallback" then "very_low"
  else "unknown"

/-! ### helpers.split_top_candidate_urls (src/helpers.py lines 116-125)

The Vision web-detection payload is modelled as the list of
`pagesWithMatchingImages` entries, each carrying an optional `url` value;
a missing key and an empty string are both falsy in the source's
`if p.get("url")` filter. -/

/-- The list comprehension `[p.get("url") for p in pages if p.get("url")]`:
keep only present, non-empty URLs. -/
def pageUrls (pages : List (Option String)) : List String :=
  pages.filterMap (fun o => match o with
    | some u => if u = "" then none else some u
    | none => none)

/-- Order-preserving first-occurrence deduplication, the `seen`/`dedup`
loop of the source. -/
def dedupKeepFirst (seen : List String) : List String → List String
  | [] => []
  | u :: t => if strMem u seen then dedupKeepFirst seen t
              else u :: dedupKeepFirst (u :: seen) t

/-- The source's service test: `"discogs.com" in u.lower()` — a substring
test on the whole lowered URL string, not a host check. -/
def isDiscogsUrl (u : String) : Bool :=
  strContains (lowerStr u) "discogs.com"

/-- Embedding of `helpers.split_top_candidate_urls`. -/
def split_top_candidate_urls (pages : List (Option String)) (limit : Nat) :
    List String × List String :=
  let dedup := dedupKeepFirst [] (pageUrls pages)
  ((dedup.filter (fun u => isDiscogsUrl u)).take limit,
   (dedup.filter (fun u => !isDiscogsUrl u)).take limit)

/-- Host of a URL as the specification's words describe it ("the URL's
host"): the authority component between `scheme://` and the next `/`, `?`
or `#`.  Used only to compare the spec's partition rule with the source's. -/
def hostOf (u : String) : String :=
  match splitOnFirst "://".data u.data with
  | some (_, rest) =>
    String.mk (rest.takeWhile (fun c => c ≠ '/' ∧ c ≠ '?' ∧ c ≠ '#'))
  | none => ""

/-- Spec-side membership test: the URL's host belongs to the discography
service, i.e. it is `discogs.com` or a subdomain of it. -/
def specHostIsDiscogs (u : String) : Bool :=
  let h := (lowerStr (hostOf u)).data
  h = "discogs.com".data || List.isSuffixOf ".discogs.com".data h

/-! ### helpers.extract_release_or_master (src/helpers.py lines 102-114) -/

/-- Which Discogs entity a URL refers to. -/
inductive UrlKind where
  | release
  | master
deriving DecidableEq, Repr

/-- Left-to-right scan for the regex `pat(\d+)`: at each position, if `pat`
matches and at least one digit follows, return the value of the maximal
digit run; otherwise advance one character (the behaviour of
`re.search(pat + r"(\d+)", s)` for a literal `pat`). -/
def findPat (pat : List Char) : List Char → Option Nat
  | [] => none
  | c :: t =>
    if pat.isPrefixOf (c :: t) then
      let ds := ((c :: t).drop pat.length).takeWhile Char.isDigit
      if ds.isEmpty then findPat pat t else some (digitsVal ds)
    else findPat pat t

/-- Scheme characters accepted by Python's `urllib.parse` (`a-zA-Z0-9+-.`). -/
def isSchemeChar (c : Char) : Bool :=
  c.isAlpha || c.isDigit || c = '+' || c = '-' || c = '.'

/-- Split a character list at the first occurrence of `c`: the part before
and the part strictly after. -/
def breakAt (c : Char) : List Char → List Char × Option (List Char)
  | [] => ([], none)
  | x :: t =>
    if x = c then ([], some t)
    else
      let (a, b) := breakAt c t
      (x :: a, b)

/-- Path component of a URL as `urllib.parse.urlparse(url).path` computes
it: drop the fragment, strip a syntactically valid scheme, strip the
network location when the remainder starts with `//`, drop the query. -/
def urlParsePath (u : String) : List Char :=
  let s := (breakAt '#' u.data).1
  let (pre, rest) := breakAt ':' s
  let afterScheme : List Char :=
    match rest with
    | some r =>
      if pre ≠ [] ∧ (pre.headD ' ').isAlpha ∧ pre.all isSchemeChar then r else s
    | none => s
  let afterNet : List Char :=
    if ['/', '/'].isPrefixOf afterScheme then
      (afterScheme.drop 2).dropWhile (fun c => c ≠ '/' ∧ c ≠ '?')
    else afterScheme
  (breakAt '?' afterNet).1

/-- Embedding of `helpers.extract_release_or_master`: search the parsed
path for `/release/(\d+)` first, then `/master/(\d+)`; anything else —
including unparseable input — yields `none` (the Python `(None, None)`). -/
def extract_release_or_master (url : String) : Option (UrlKind × Nat) :=
  let path := urlParsePath url
  match findPat "/release/".data path with
  | some n => some (UrlKind.release, n)
  | none =>
    match findPat "/master/".data path with
    | some n => some (UrlKind.master, n)
    | none => none

/-- Independent index-based characterisation of the first regex match,
used to state the amended claim about `extract_release_or_master` without
restating its recursion: try every start index in order. -/
def matchAt (pat s : List Char) (i : Nat) : Option Nat :=
  if pat.isPrefixOf (s.drop i) then
    let ds := ((s.drop i).drop pat.length).takeWhile Char.isDigit
    if ds.isEmpty then none else some (digitsVal ds)
  else none

/-- First pattern-with-digits match over all start positions. -/
def specFindPat (pat s : List Char) : Option Nat :=
  (List.range s.length).findSome? (matchAt pat s)

theorem findSome?_map_succ {α : Type} (f : Nat → Option α) (l : List Nat) :
    (l.map Nat.succ).findSome? f = l.findSome? (fun i => f (i + 1)) := by
  induction l with
  | nil => rfl
  | cons x t ih =>
    simp [List.findSome?, ih, Nat.succ_eq_add_one]

theorem specFindPat_cons (pat : List Char) (c : Char) (t : List Char) :
    specFindPat pat (c :: t) =
      (match matchAt pat (c :: t) 0 with
       | some v => some v
       | none => specFindPat pat t) := by
  have hshift : ∀ i : Nat, matchAt pat (c :: t) (i + 1) = matchAt pat t i := by
    intro i
    simp [matchAt]
  unfold specFindPat
  rw [List.length_cons, List.range_succ_eq_map]
  cases h0 : matchAt pat (c :: t) 0 with
  | none =>
    simp only [List.findSome?, h0, findSome?_map_succ]
    simp [hshift]
  | some v =>
    simp only [List.findSome?, h0]

theorem findPat_eq_specFindPat (pat : List Char) (s : List Char) :
    findPat pat s = specFindPat pat s := by
  induction s with
  | nil => simp [findPat, specFindPat]
  | cons c t ih =>
    rw [specFindPat_cons]
    by_cases hp : pat.isPrefixOf (c :: t)
    · by_cases hd : (((c :: t).drop pat.length).takeWhile Char.isDigit).isEmpty
      · have h0 : matchAt pat (c :: t) 0 = none := by
          simp [matchAt, hp, hd]
        rw [h0]
        simp [findPat, hp, hd, ih]
      · have h0 : matchAt pat (c :: t) 0 =
            some (digitsVal (((c :: t).drop pat.length).takeWhile Char.isDigit)) := by
          simp [matchAt, hp, hd]
        rw [h0]
        simp [findPat, hp, hd]
    · have h0 : matchAt pat (c :: t) 0 = none := by
        simp [matchAt, hp]
      rw [h0]
      simp [findPat, hp, ih]

/-! ### Lemmas about the candidate extractor -/

theorem dedupKeepFirst_sublist (seen : List String) (l : List String) :
    (dedupKeepFirst seen l).Sublist l := by
  induction l generalizing seen with
  | nil => simp [dedupKeepFirst]
  | cons u t ih =>
    by_cases h : strMem u seen
    · rw [dedupKeepFirst, if_pos h]
      exact (ih seen).trans (List.sublist_cons_self u t)
    · rw [dedupKeepFirst, if_neg h]
      exact (ih (u :: seen)).cons₂ u

theorem mem_dedupKeepFirst (seen : List String) (l : List String) (u : String) :
    u ∈ dedupKeepFirst seen l ↔ u ∈ l ∧ u ∉ seen := by
  induction l generalizing seen with
  | nil => simp [dedupKeepFirst]
  | cons v t ih =>
    by_cases h : v ∈ seen
    · have hc : strMem v seen = true := (strMem_iff _ _).2 h
      rw [dedupKeepFirst, if_pos hc]
      rw [ih]
      constructor
      · rintro ⟨hm, hs⟩
        exact ⟨List.mem_cons_of_mem _ hm, hs⟩
      · rintro ⟨hm, hs⟩
        rcases List.mem_cons.1 hm with rfl | hm'
        · exact absurd h hs
        · exact ⟨hm', hs⟩
    · have hc : ¬ (strMem v seen = true) := fun hm => h ((strMem_iff _ _).1 hm)
      rw [dedupKeepFirst, if_neg hc]
      constructor
      · intro hm
        rcases List.mem_cons.1 hm with rfl | hm'
        · exact ⟨List.mem_cons_self _ _, h⟩
        · obtain ⟨hm2, hs2⟩ := (ih _).1 hm'
          exact ⟨List.mem_cons_of_mem _ hm2, fun hu => hs2 (List.mem_cons_of_mem _ hu)⟩
      · rintro ⟨hm, hs⟩
        rcases List.mem_cons.1 hm with rfl | hm'
        · exact List.mem_cons_self _ _
        · by_cases hvu : u = v
          · subst hvu
            exact List.mem_cons_self _ _
          · exact List.mem_cons_of_mem _ ((ih _).2 ⟨hm', by simp [hs, hvu]⟩)

theorem dedupKeepFirst_nodup (seen : List String) (l : List String) :
    (dedupKeepFirst seen l).Nodup := by
  induction l generalizing seen with
  | nil => simp [dedupKeepFirst]
  | cons v t ih =>
    by_cases h : strMem v seen
    · rw [dedupKeepFirst, if_pos h]
      exact ih seen
    · rw [dedupKeepFirst, if_neg h]
      refine List.nodup_cons.2 ⟨fun hm => ?_, ih (v :: seen)⟩
      exact ((mem_dedupKeepFirst _ _ _).1 hm).2 (List.mem_cons_self v seen)

/-- Claim C5 — amended. The extractor deduplicates by exact URL string while
preserving first-occurrence order (`[u1, u2, u1, u3] → [u1, u2, u3]`), and
partitions the deduplicated list — by whether the URL string contains
`"discogs.com"` case-insensitively anywhere, not by its parsed host — into
same-service and other candidates, each truncated to the top-`limit`. -/
theorem C5_candidate_extraction (pages : List (Option String)) (limit : Nat)
    (u1 u2 u3 : String) :
    (dedupKeepFirst [] (pageUrls pages)).Sublist (pageUrls pages) ∧
    (dedupKeepFirst [] (pageUrls pages)).Nodup ∧
    (∀ u, u ∈ dedupKeepFirst [] (pageUrls pages) ↔ u ∈ pageUrls pages) ∧
    (split_top_candidate_urls pages limit).1.Sublist (dedupKeepFirst [] (pageUrls pages)) ∧
    (split_top_candidate_urls pages limit).2.Sublist (dedupKeepFirst [] (pageUrls pages)) ∧
    (∀ u ∈ (split_top_candidate_urls pages limit).1, isDiscogsUrl u = true) ∧
    (∀ u ∈ (split_top_candidate_urls pages limit).2, isDiscogsUrl u = false) ∧
    (split_top_candidate_urls pages limit).1.length ≤ limit ∧
    (split_top_candidate_urls pages limit).2.length ≤ limit ∧
    (u1 ≠ u2 → u1 ≠ u3 → u2 ≠ u3 →
      dedupKeepFirst [] [u1, u2, u1, u3] = [u1, u2, u3]) := by
  refine ⟨dedupKeepFirst_sublist [] _, dedupKeepFirst_nodup [] _, ?_, ?_, ?_, ?_, ?_, ?_, ?_, ?_⟩
  · intro u
    simpa using mem_dedupKeepFirst [] (pageUrls pages) u
  · exact (List.take_sublist _ _).trans (List.filter_sublist _)
  · exact (List.take_sublist _ _).trans (List.filter_sublist _)
  · intro u hu
    have := List.mem_of_mem_take hu
    exact List.of_mem_filter this
  · intro u hu
    have := List.mem_of_mem_take hu
    simpa using List.of_mem_filter this
  · show (((dedupKeepFirst [] (pageUrls pages)).filter
        (fun u => isDiscogsUrl u)).take limit).length ≤ limit
    rw [List.length_take]
    exact min_le_left _ _
  · show (((dedupKeepFirst [] (pageUrls pages)).filter
        (fun u => !isDiscogsUrl u)).take limit).length ≤ limit
    rw [List.length_take]
    exact min_le_left _ _
  · intro h12 h13 h23
    simp [dedupKeepFirst, strMem, h12, h13, h23, Ne.symm h12, Ne.symm h13,
      Ne.symm h23]

/-- Claim C5 — witness: the dedup instance evaluated on three distinct
concrete URLs; the first same-service partition on a concrete page list. -/
theorem C5_candidate_extraction_witness :
    dedupKeepFirst [] ["a", "b", "a", "c"] = ["a", "b", "c"] :=
  (C5_candidate_extraction [] 3 "a" "b" "c").2.2.2.2.2.2.2.2.2
    (by decide) (by decide) (by decide)

/-- Claim C5 — counterexample to the claim as stated: the source partitions
by the substring test `"discogs.com" in url.lower()`, not by the URL's
host.  A URL whose host is `example.com` but whose query mentions
`discogs.com` lands in the same-service partition. -/
theorem C5_counterexample :
    split_top_candidate_urls [some "https://example.com/?ref=discogs.com"] 3 =
      (["https://example.com/?ref=discogs.com"], []) ∧
    specHostIsDiscogs "https://example.com/?ref=discogs.com" = false ∧
    hostOf "https://example.com/?ref=discogs.com" = "example.com" := by
  refine ⟨by decide, by decide, by decide⟩

/-! ### Claim C2: the confidence bucket table -/

/-- Claim C2 — counterexample to the claim as stated: for method
`search_fallback` with `is_vinyl = false` the source returns `"very_low"`
(final `search_fallback` catch-all branch), not `"unknown"`. -/
theorem C2_counterexample :
    confidence_bucket "search_fallback" false false false = "very_low" ∧
    confidence_bucket "search_fallback" true false true = "very_low" ∧
    ("very_low" : String) ≠ "unknown" := by
  refine ⟨by decide, by decide, by decide⟩

/-- Claim C2 — amended. The bucket table holds as claimed except that a
non-target-format result with method `search_fallback` yields `"very_low"`;
only the other methods map a non-target-format result to `"unknown"`. -/
theorem C2_confidence_table :
    (∀ h : Bool, confidence_bucket "release_url" h true true = "high") ∧
    (∀ h u : Bool, confidence_bucket "master_url" h true u = "medium") ∧
    (confidence_bucket "search_fallback" true true true = "low") ∧
    (∀ h u : Bool, ¬(h = true ∧ u = true) →
      confidence_bucket "search_fallback" h true u = "very_low") ∧
    (∀ h u : Bool, confidence_bucket "search_fallback" h false u = "very_low") ∧
    (∀ (m : String) (h u : Bool), m ≠ "search_fallback" →
      confidence_bucket m h false u = "unknown") := by
  refine ⟨by decide, by decide, by decide, by decide, by decide, ?_⟩
  intro m h u hm
  simp [confidence_bucket, hm]

/-- Claim C2 — witness: the non-`search_fallback` non-target-format row of
the amended table evaluated at a concrete method. -/
theorem C2_confidence_table_witness :
    confidence_bucket "release_url" true false true = "unknown" :=
  C2_confidence_table.2.2.2.2.2 "release_url" true true (by decide)

/-! ### Claim C10: URL classification -/

/-- Claim C10 — counterexample to the claim as stated: the id parsed from
`/release/<digits>` need not be positive; `/release/0` classifies as a
release with id `0`. -/
theorem C10_counterexample :
    extract_release_or_master "https://www.discogs.com/release/0" =
      some (UrlKind.release, 0) ∧ ¬ (0 : Nat) > 0 := by
  refine ⟨by decide, by decide⟩

/-- Claim C10 — amended. `extract_release_or_master` is total on strings
and equals the positional first-match characterisation: the id is the
nonnegative value of the digit run after the first `/release/` occurrence
of the parsed path, with `/release/` checked before `/master/`, and
`(None, None)` when neither matches. -/
theorem C10_classification (url : String) :
    (extract_release_or_master url =
      (match specFindPat "/release/".data (urlParsePath url) with
       | some n => some (UrlKind.release, n)
       | none =>
         match specFindPat "/master/".data (urlParsePath url) with
         | some n => some (UrlKind.master, n)
         | none => none)) ∧
    (∀ n, specFindPat "/release/".data (urlParsePath url) = some n →
      extract_release_or_master url = some (UrlKind.release, n)) ∧
    (extract_release_or_master url = none ↔
      specFindPat "/release/".data (urlParsePath url) = none ∧
      specFindPat "/master/".data (urlParsePath url) = none) := by
  have hmain : extract_release_or_master url =
      (match specFindPat "/release/".data (urlParsePath url) with
       | some n => some (UrlKind.release, n)
       | none =>
         match specFindPat "/master/".data (urlParsePath url) with
         | some n => some (UrlKind.master, n)
         | none => none) := by
    simp only [extract_release_or_master, findPat_eq_specFindPat]
  refine ⟨hmain, ?_, ?_⟩
  · intro n hn
    rw [hmain, hn]
  · rw [hmain]
    cases h1 : specFindPat "/release/".data (urlParsePath url) with
    | some n => simp [h1]
    | none =>
      cases h2 : specFindPat "/master/".data (urlParsePath url) with
      | some n => simp
      | none => simp

/-- Claim C10 — witness: the characterisation applied to a concrete URL
containing both a master and a release segment (release wins). -/
theorem C10_classification_witness :
    extract_release_or_master "https://www.discogs.com/master/7/release/512" =
      some (UrlKind.release, 512) :=
  (C10_classification "https://www.discogs.com/master/7/release/512").2.1 512 rfl

/-! ### The match resolver (src/workflows.py, process_vision_responses lines 179-359)

Remote behaviour is abstracted into oracles:
* `val rid` models `discogs_get_release(rid)` followed by
  `validate_release_is_vinyl_and_us`: `none` when the fetch fails
  (falsy `release_data`), otherwise `(is_vinyl, is_us, reason)`;
* `mres mid` models `discogs_release_from_master(mid)`: `none` when the
  resolution fails outright, otherwise the source's 4-tuple
  `(candidate_id, candidate_vinyl, candidate_us, reason)`, with
  `candidate_id = 0` standing for a falsy id;
* `searchFn artist album` models `cached_discogs_search`: the ranked hits
  as `(id, uri)` pairs, id `0` standing for a falsy/missing id.
Oracles are pure functions, i.e. the remote answers consistently within
one image. -/

/-- The resolver's mutable per-image locals (`release_id`, `match_url`,
`match_method`, `is_vinyl`, `is_us`, `match_reason`). -/
structure ResolveState where
  release_id : Option Nat
  match_url : Option String
  match_method : Option String
  is_vinyl : Bool
  is_us : Bool
  match_reason : String
deriving DecidableEq, Repr

/-- Initial values of the resolver locals (lines 213-218 of the source). -/
def initState : ResolveState :=
  { release_id := none
    match_url := none
    match_method := none
    is_vinyl := false
    is_us := false
    match_reason := "" }

/-- Pass B (lines 234-251): try release URLs in order.  Note that the
source assigns `is_vinyl, is_us` from every successfully fetched candidate
— also ones that are neither accepted nor kept as fallback. -/
def releasePass (val : Nat → Option (Bool × Bool × String)) :
    List (Nat × String) → ResolveState → ResolveState
  | [], s => s
  | (rid, url) :: rest, s =>
    match val rid with
    | none => releasePass val rest s
    | some (v, u, r) =>
      let s1 : ResolveState := { s with is_vinyl := v, is_us := u }
      if v && u then
        { s1 with
          release_id := some rid
          match_url := some url
          match_method := some "release_url"
          match_reason := r }
      else if v && s1.release_id.isNone then
        releasePass val rest
          { s1 with
            release_id := some rid
            match_url := some url
            match_method := some "release_url"
            match_reason := r }
      else releasePass val rest s1

/-- Pass C (lines 254-277): try master URLs; a vinyl+US resolution
short-circuits, a vinyl-only one is kept only if no candidate exists yet. -/
def masterPass (mres : Nat → Option (Nat × Bool × Bool × String)) :
    List (Nat × String) → ResolveState → ResolveState
  | [], s => s
  | (mid, url) :: rest, s =>
    match mres mid with
    | none => masterPass mres rest s
    | some (cid, cv, cu, r) =>
      if cid = 0 then masterPass mres rest s
      else if cv && cu then
        { s with
          release_id := some cid
          match_url := some url
          match_method := some "master_url"
          is_vinyl := true
          is_us := true
          match_reason := r }
      else if cv && s.release_id.isNone then
        masterPass mres rest
          { s with
            release_id := some cid
            match_url := some url
            match_method := some "master_url"
            is_vinyl := true
            is_us := false
            match_reason := r }
      else masterPass mres rest s

/-- The validation loop over search hits (lines 297-318). -/
def searchLoop (val : Nat → Option (Bool × Bool × String)) :
    List (Nat × String) → ResolveState → ResolveState
  | [], s => s
  | (cid, uri) :: rest, s =>
    if cid = 0 then searchLoop val rest s
    else
      match val cid with
      | none => searchLoop val rest s
      | some (v, u, r) =>
        if v && u then
          { s with
            release_id := some cid
            match_url := some uri
            match_method := some "search_fallback"
            is_vinyl := true
            is_us := true
            match_reason := r }
        else if v && s.release_id.isNone then
          searchLoop val rest
            { s with
              release_id := some cid
              match_url := some uri
              match_method := some "search_fallback"
              is_vinyl := true
              is_us := false
              match_reason := r }
        else searchLoop val rest s

/-- Hint derivation of pass D (lines 281-291): the first two non-blank
stripped OCR lines as (artist, album); if no album hint resulted and the
best-guess label is truthy and contains `" - "`, split it at the first
`" - "` instead, stripping both halves.  `ocrLines` is the line list of
the first text annotation's description (`text.splitlines()`). -/
def deriveHints (ocrLines : List String) (bgl : Option String) :
    Option String × Option String :=
  let parts := (ocrLines.map pyStrip).filter (fun p => p ≠ "")
  let hints : Option String × Option String :=
    if parts.length ≥ 2 then (parts.get? 0, parts.get? 1) else (none, none)
  match hints.2, bgl with
  | none, some g =>
    if g ≠ "" ∧ strContains g " - " then
      match splitOnFirst " - ".data g.data with
      | some (x, y) => (some (pyStrip (String.mk x)), some (pyStrip (String.mk y)))
      | none => hints
    else hints
  | _, _ => hints

/-- Pass D (lines 281-318): search with the derived hints — only when at
least one hint is truthy — and validate the hits. -/
def searchPass (val : Nat → Option (Bool × Bool × String))
    (searchFn : String → String → List (Nat × String))
    (ocrLines : List String) (bgl : Option String) (s : ResolveState) : ResolveState :=
  let hints := deriveHints ocrLines bgl
  if hints.1.getD "" ≠ "" ∨ hints.2.getD "" ≠ "" then
    searchLoop val (searchFn (hints.1.getD "") (hints.2.getD "")) s
  else s

/-- Finalisation (lines 321-326): if a release id was kept but its reason
string is empty, re-fetch and re-validate it. -/
def finalizeState (val : Nat → Option (Bool × Bool × String)) (s : ResolveState) :
    ResolveState :=
  match s.release_id with
  | none => s
  | some rid =>
    if s.match_reason = "" then
      match val rid with
      | some (v, u, r) => { s with is_vinyl := v, is_us := u, match_reason := r }
      | none => s
    else s

/-- The three passes plus finalisation, with the source's entry guards:
the master pass runs iff no release id is set or the kept one is not
preferred-region; the text-search pass runs iff no release id is set. -/
def resolvePasses (val : Nat → Option (Bool × Bool × String))
    (mres : Nat → Option (Nat × Bool × Bool × String))
    (searchFn : String → String → List (Nat × String))
    (relCands masCands : List (Nat × String))
    (ocrLines : List String) (bgl : Option String) : ResolveState :=
  let s1 := releasePass val relCands initState
  let s2 := if s1.release_id.isNone || !s1.is_us then masterPass mres masCands s1 else s1
  let s3 := if s2.release_id.isNone then searchPass val searchFn ocrLines bgl s2 else s2
  finalizeState val s3

/-- Candidate harvest, release URLs (lines 225-231): every page URL —
regardless of host — whose classification is a release with truthy id. -/
def harvestRel : List (Option String) → List (Nat × String)
  | [] => []
  | o :: t =>
    let url := o.getD ""
    match extract_release_or_master url with
    | some (UrlKind.release, n) =>
      if n ≠ 0 then (n, url) :: harvestRel t else harvestRel t
    | _ => harvestRel t

/-- Candidate harvest, master URLs (lines 225-231). -/
def harvestMas : List (Option String) → List (Nat × String)
  | [] => []
  | o :: t =>
    let url := o.getD ""
    match extract_release_or_master url with
    | some (UrlKind.master, n) =>
      if n ≠ 0 then (n, url) :: harvestMas t else harvestMas t
    | _ => harvestMas t

/-- The per-image output fields relevant to the claims (a projection of
the row dict appended at lines 342-359, plus the internal method). -/
structure MatchRow where
  status : String
  confidence_level : String
  discogs_release_id : Option Nat
  discogs_url : Option String
  match_method : Option String
  has_discogs_candidate : Bool
deriving DecidableEq, Repr

/-- Status and confidence derivation (lines 328-338) and row assembly. -/
def buildRow (s : ResolveState) (has_discogs other_nonempty : Bool) : MatchRow :=
  let status := if s.release_id.isSome then
      (if s.is_vinyl then "matched" else "review_needed")
    else "review_needed"
  let conf0 := confidence_bucket (s.match_method.getD "unknown") has_discogs
      s.is_vinyl s.is_us
  let conf := if status = "review_needed" ∧ has_discogs = false ∧ other_nonempty = true
    then "very_low" else conf0
  { status := status
    confidence_level := conf
    discogs_release_id := s.release_id
    discogs_url := s.match_url
    match_method := s.match_method
    has_discogs_candidate := has_discogs }

/-- One iteration of the image loop of `process_vision_responses`:
the per-response error branch (lines 187-206), candidate extraction,
the resolver passes and the row assembly. -/
def processImage (val : Nat → Option (Bool × Bool × String))
    (mres : Nat → Option (Nat × Bool × Bool × String))
    (searchFn : String → String → List (Nat × String))
    (err : Option String) (pages : List (Option String))
    (ocrLines : List String) (bgl : Option String) : MatchRow :=
  match err with
  | some _ =>
    { status := "review_needed"
      confidence_level := "unknown"
      discogs_release_id := none
      discogs_url := none
      match_method := none
      has_discogs_candidate := false }
  | none =>
    let cands := split_top_candidate_urls pages 10
    let s := resolvePasses val mres searchFn (harvestRel (pages.take 10))
      (harvestMas (pages.take 10)) ocrLines bgl
    buildRow s (!cands.1.isEmpty) (!cands.2.isEmpty)

/-- Trivial release oracle: every fetch fails. -/
def trivialVal : Nat → Option (Bool × Bool × String) := fun _ => none

/-- Trivial master oracle: every resolution fails. -/
def trivialMres : Nat → Option (Nat × Bool × Bool × String) := fun _ => none

/-- Trivial search oracle: no hits. -/
def trivialSearch : String → String → List (Nat × String) := fun _ _ => []

/-! ### Resolver lemmas -/

/-- The resolver locals keep `release_id` and `match_method` in lockstep:
one is unset iff the other is. -/
def linked (s : ResolveState) : Prop :=
  s.release_id = none ↔ s.match_method = none

theorem releasePass_linked (val : Nat → Option (Bool × Bool × String))
    (cands : List (Nat × String)) (s : ResolveState) (h : linked s) :
    linked (releasePass val cands s) := by
  induction cands generalizing s with
  | nil => exact h
  | cons p t ih =>
    obtain ⟨rid, url⟩ := p
    simp only [releasePass]
    cases hv : val rid with
    | none => exact ih s h
    | some x =>
      obtain ⟨v, u, r⟩ := x
      dsimp only
      by_cases hvu : (v && u) = true
      · simp [hvu, linked]
      · rw [if_neg hvu]
        by_cases hf : (v && ({ s with is_vinyl := v, is_us := u } :
            ResolveState).release_id.isNone) = true
        · rw [if_pos hf]
          exact ih _ (by simp [linked])
        · rw [if_neg hf]
          exact ih _ (by simpa [linked] using h)

theorem masterPass_linked (mres : Nat → Option (Nat × Bool × Bool × String))
    (cands : List (Nat × String)) (s : ResolveState) (h : linked s) :
    linked (masterPass mres cands s) := by
  induction cands generalizing s with
  | nil => exact h
  | cons p t ih =>
    obtain ⟨mid, url⟩ := p
    simp only [masterPass]
    cases hv : mres mid with
    | none => exact ih s h
    | some x =>
      obtain ⟨cid, cv, cu, r⟩ := x
      dsimp only
      by_cases hcid : cid = 0
      · rw [if_pos hcid]
        exact ih s h
      · rw [if_neg hcid]
        by_cases hvu : (cv && cu) = true
        · simp [hvu, linked]
        · rw [if_neg hvu]
          by_cases hf : (cv && s.release_id.isNone) = true
          · rw [if_pos hf]
            exact ih _ (by simp [linked])
          · rw [if_neg hf]
            exact ih _ h

theorem searchLoop_linked (val : Nat → Option (Bool × Bool × String))
    (hits : List (Nat × String)) (s : ResolveState) (h : linked s) :
    linked (searchLoop val hits s) := by
  induction hits generalizing s with
  | nil => exact h
  | cons p t ih =>
    obtain ⟨cid, uri⟩ := p
    simp only [searchLoop]
    by_cases hcid : cid = 0
    · rw [if_pos hcid]
      exact ih s h
    · rw [if_neg hcid]
      cases hv : val cid with
      | none => exact ih s h
      | some x =>
        obtain ⟨v, u, r⟩ := x
        dsimp only
        by_cases hvu : (v && u) = true
        · simp [hvu, linked]
        · rw [if_neg hvu]
          by_cases hf : (v && s.release_id.isNone) = true
          · rw [if_pos hf]
            exact ih _ (by simp [linked])
          · rw [if_neg hf]
            exact ih _ h

theorem searchPass_linked (val : Nat → Option (Bool × Bool × String))
    (searchFn : String → String → List (Nat × String))
    (ocrLines : List String) (bgl : Option String) (s : ResolveState) (h : linked s) :
    linked (searchPass val searchFn ocrLines bgl s) := by
  unfold searchPass
  dsimp only
  split
  · exact searchLoop_linked _ _ _ h
  · exact h

theorem finalizeState_linked (val : Nat → Option (Bool × Bool × String))
    (s : ResolveState) (h : linked s) : linked (finalizeState val s) := by
  unfold finalizeState
  cases hrid : s.release_id with
  | none => exact h
  | some rid =>
    dsimp only
    by_cases hr : s.match_reason = ""
    · rw [if_pos hr]
      cases hv : val rid with
      | some x =>
        obtain ⟨v, u, r⟩ := x
        dsimp only
        simpa [linked, hrid] using h
      | none => exact h
    · rw [if_neg hr]
      exact h

theorem resolvePasses_linked (val : Nat → Option (Bool × Bool × String))
    (mres : Nat → Option (Nat × Bool × Bool × String))
    (searchFn : String → String → List (Nat × String))
    (relCands masCands : List (Nat × String))
    (ocrLines : List String) (bgl : Option String) :
    linked (resolvePasses val mres searchFn relCands masCands ocrLines bgl) := by
  unfold resolvePasses
  apply finalizeState_linked
  have h1 : linked (releasePass val relCands initState) :=
    releasePass_linked val relCands initState (by simp [linked, initState])
  split
  · have h2 : linked (masterPass mres masCands (releasePass val relCands initState)) :=
      masterPass_linked mres masCands _ h1
    split
    · exact searchPass_linked _ _ _ _ _ h2
    · exact h2
  · split
    · exact searchPass_linked _ _ _ _ _ h1
    · exact h1

/-- Once a release id is set, only a target-format AND preferred-region
candidate can replace it in the release pass. -/
theorem releasePass_keep (val : Nat → Option (Bool × Bool × String))
    (cands : List (Nat × String)) (s : ResolveState)
    (hs : s.release_id.isSome = true)
    (hall : ∀ p ∈ cands, ∀ v u r, val p.1 = some (v, u, r) → ¬(v = true ∧ u = true)) :
    (releasePass val cands s).release_id = s.release_id := by
  induction cands generalizing s with
  | nil => rfl
  | cons p t ih =>
    obtain ⟨rid, url⟩ := p
    simp only [releasePass]
    cases hv : val rid with
    | none => exact ih s hs (fun q hq => hall q (List.mem_cons_of_mem _ hq))
    | some x =>
      obtain ⟨v, u, r⟩ := x
      dsimp only
      have hnvu : ¬(v = true ∧ u = true) :=
        hall (rid, url) (List.mem_cons_self _ _) v u r hv
      have hvu : (v && u) = false := by
        cases v <;> cases u <;> simp_all
      rw [if_neg (by simp [hvu])]
      have hnone : s.release_id.isNone = false := by
        cases hsr : s.release_id with
        | none => rw [hsr] at hs; simp at hs
        | some q => simp
      rw [if_neg (by simp [hnone])]
      exact ih _ (by simpa using hs) (fun q hq => hall q (List.mem_cons_of_mem _ hq))

/-- Claim C1: for release candidates `[A, B]` with A target-format but
wrong region and B target-format and preferred region, the resolver
returns B with method `release_url` — independently of the master and
search oracles and of any master candidates, i.e. those passes are never
consulted — and a wrong-region fallback, once remembered, is not
overwritten by later candidates unless one is target-format AND
preferred-region. -/
theorem C1_resolver_short_circuit (val : Nat → Option (Bool × Bool × String))
    (a b : Nat) (ua ub ra rb : String)
    (hva : val a = some (true, false, ra))
    (hvb : val b = some (true, true, rb)) :
    (∀ (mres : Nat → Option (Nat × Bool × Bool × String))
       (searchFn : String → String → List (Nat × String))
       (masCands : List (Nat × String)) (ocrLines : List String) (bgl : Option String),
      (resolvePasses val mres searchFn [(a, ua), (b, ub)] masCands ocrLines bgl).release_id
          = some b ∧
      (resolvePasses val mres searchFn [(a, ua), (b, ub)] masCands ocrLines bgl).match_method
          = some "release_url" ∧
      (resolvePasses val mres searchFn [(a, ua), (b, ub)] masCands ocrLines bgl).match_url
          = some ub) ∧
    (∀ rest : List (Nat × String),
      (∀ p ∈ rest, ∀ v u r, val p.1 = some (v, u, r) → ¬(v = true ∧ u = true)) →
      (releasePass val ((a, ua) :: rest) initState).release_id = some a) := by
  have hpass : releasePass val [(a, ua), (b, ub)] initState =
      { release_id := some b
        match_url := some ub
        match_method := some "release_url"
        is_vinyl := true
        is_us := true
        match_reason := rb } := by
    simp [releasePass, hva, hvb, initState]
  constructor
  · intro mres searchFn masCands ocrLines bgl
    unfold resolvePasses
    rw [hpass]
    by_cases hrb : rb = ""
    · simp [finalizeState, hrb, hvb]
    · simp [finalizeState, hrb]
  · intro rest hrest
    have hstep : releasePass val ((a, ua) :: rest) initState =
        releasePass val rest
          { release_id := some a
            match_url := some ua
            match_method := some "release_url"
            is_vinyl := true
            is_us := false
            match_reason := ra } := by
      simp [releasePass, hva, initState]
    rw [hstep, releasePass_keep val rest _ (by simp) hrest]

/-- Concrete release oracle used to instantiate the C1 theorem: release 1
is target-format but wrong region, release 2 is target-format and
preferred region, everything else fails to fetch. -/
def c1val : Nat → Option (Bool × Bool × String) :=
  fun n => if n = 1 then some (true, false, "Vinyl, UK (not US)")
           else if n = 2 then some (true, true, "Vinyl, US") else none

/-- Claim C1 — witness: the short-circuit and the fallback-preservation
conclusions evaluated on the concrete oracle `c1val`. -/
theorem C1_resolver_short_circuit_witness :
    (resolvePasses c1val trivialMres trivialSearch [(1, "ua"), (2, "ub")] [] [] none).release_id
        = some 2 ∧
    (releasePass c1val [(1, "ua"), (3, "uc")] initState).release_id = some 1 := by
  have h := C1_resolver_short_circuit c1val 1 2 "ua" "ub" "Vinyl, UK (not US)" "Vinyl, US"
    (by decide) (by decide)
  refine ⟨(h.1 trivialMres trivialSearch [] [] none).1, h.2 [(3, "uc")] ?_⟩
  intro p hp v u r hvur
  have hp3 : p = (3, "uc") := by simpa using hp
  rw [hp3] at hvur
  simp [c1val] at hvur

/-- Release oracle for the C3 counterexample: release 1 is vinyl but not
US, release 2 is not vinyl. -/
def c3val : Nat → Option (Bool × Bool × String) :=
  fun n => if n = 1 then some (true, false, "Vinyl, UK (not US)")
           else if n = 2 then some (false, false, "Not vinyl (formats: CD)") else none

/-- Claim C3 — counterexample to the claim as stated: the resolver keeps
release 1 (target-format, wrong region) as fallback, then examines release
2 (not target-format), whose validation clobbers the `is_vinyl` local;
the final status is `review_needed` although the resolved release is
target-format. -/
theorem C3_counterexample :
    (processImage c3val trivialMres trivialSearch none
      [some "https://www.discogs.com/release/1", some "https://www.discogs.com/release/2"]
      [] none).discogs_release_id = some 1 ∧
    c3val 1 = some (true, false, "Vinyl, UK (not US)") ∧
    (processImage c3val trivialMres trivialSearch none
      [some "https://www.discogs.com/release/1", some "https://www.discogs.com/release/2"]
      [] none).status = "review_needed" := by
  refine ⟨by decide, by decide, by decide⟩

/-- Claim C3 — amended. For an image whose release pass keeps a
target-format wrong-region fallback `a` and then examines exactly one
further fetched release candidate `c`, the final status is `"matched"`
iff that LAST examined candidate is target-format: the status test reads
the `is_vinyl` local, which tracks the most recently validated
release-pass candidate, not the retained release.  The release id itself
is still `a` in both cases, and a region mismatch alone (c target-format,
wrong region) does not downgrade the match. -/
theorem C3_finalization (val : Nat → Option (Bool × Bool × String))
    (a c : Nat) (ua uc ra rc : String) (cv : Bool)
    (hva : val a = some (true, false, ra))
    (hra : ra ≠ "")
    (hvc : val c = some (cv, false, rc)) :
    ∀ (mres : Nat → Option (Nat × Bool × Bool × String))
      (searchFn : String → String → List (Nat × String))
      (ocrLines : List String) (bgl : Option String) (hd ho : Bool),
      (buildRow (resolvePasses val mres searchFn [(a, ua), (c, uc)] [] ocrLines bgl)
        hd ho).discogs_release_id = some a ∧
      (buildRow (resolvePasses val mres searchFn [(a, ua), (c, uc)] [] ocrLines bgl)
        hd ho).status = (if cv then "matched" else "review_needed") := by
  intro mres searchFn ocrLines bgl hd ho
  have hpass : releasePass val [(a, ua), (c, uc)] initState =
      { release_id := some a
        match_url := some ua
        match_method := some "release_url"
        is_vinyl := cv
        is_us := false
        match_reason := ra } := by
    simp [releasePass, hva, hvc, initState]
  unfold resolvePasses
  rw [hpass]
  simp [masterPass, finalizeState, hra, buildRow]

/-- Claim C4 — counterexample to the claim as stated: an image with zero
same-service candidate URLs but one non-service candidate URL resolves to
method none / null release id, yet its confidence is forced to
`"very_low"`, not `"unknown"` (the override at line 337 of
src/workflows.py). -/
theorem C4_counterexample :
    (processImage trivialVal trivialMres trivialSearch none
      [some "https://example.org/x"] [] none).match_method = none ∧
    (processImage trivialVal trivialMres trivialSearch none
      [some "https://example.org/x"] [] none).discogs_release_id = none ∧
    (processImage trivialVal trivialMres trivialSearch none
      [some "https://example.org/x"] [] none).confidence_level = "very_low" ∧
    ("very_low" : String) ≠ "unknown" := by
  refine ⟨by decide, by decide, by decide, by decide⟩

theorem bucket_unknown_method (hb v u : Bool) :
    confidence_bucket "unknown" hb v u = "unknown" := by
  revert hb v u
  decide

theorem buildRow_method_none (s : ResolveState) (hd ho : Bool)
    (h : s.match_method = none) (hr : s.release_id = none) :
    (buildRow s hd ho).discogs_release_id = none ∧
    (buildRow s hd ho).confidence_level =
      (if hd = false ∧ ho = true then "very_low" else "unknown") := by
  refine ⟨by simp [buildRow, hr], ?_⟩
  simp [buildRow, h, hr, bucket_unknown_method]

/-- Claim C4 — amended. For every processed image whose resolution method
is none, the emitted record has a null release id, and its confidence is
`"unknown"` — except in the candidate configuration the claim singles
out: with zero same-service candidate URLs and at least one non-service
candidate URL the confidence is forced to `"very_low"` instead.  Images
with a per-response labelling error always get `"unknown"`. -/
theorem C4_method_none_invariant (val : Nat → Option (Bool × Bool × String))
    (mres : Nat → Option (Nat × Bool × Bool × String))
    (searchFn : String → String → List (Nat × String))
    (err : Option String) (pages : List (Option String))
    (ocrLines : List String) (bgl : Option String)
    (hm : (processImage val mres searchFn err pages ocrLines bgl).match_method = none) :
    (processImage val mres searchFn err pages ocrLines bgl).discogs_release_id = none ∧
    (processImage val mres searchFn err pages ocrLines bgl).confidence_level =
      (match err with
       | some _ => "unknown"
       | none =>
         if (split_top_candidate_urls pages 10).1.isEmpty = true ∧
            (split_top_candidate_urls pages 10).2.isEmpty = false
         then "very_low" else "unknown") := by
  cases err with
  | some e => exact ⟨rfl, rfl⟩
  | none =>
    have hmeth : (resolvePasses val mres searchFn (harvestRel (pages.take 10))
        (harvestMas (pages.take 10)) ocrLines bgl).match_method = none := by
      simpa [processImage, buildRow] using hm
    have hrel : (resolvePasses val mres searchFn (harvestRel (pages.take 10))
        (harvestMas (pages.take 10)) ocrLines bgl).release_id = none :=
      (resolvePasses_linked val mres searchFn _ _ ocrLines bgl).mpr hmeth
    have hb := buildRow_method_none _ (!(split_top_candidate_urls pages 10).1.isEmpty)
      (!(split_top_candidate_urls pages 10).2.isEmpty) hmeth hrel
    refine ⟨by simpa [processImage] using hb.1, ?_⟩
    have h2 := hb.2
    have hconf : (processImage val mres searchFn none pages ocrLines bgl).confidence_level =
        (buildRow (resolvePasses val mres searchFn (harvestRel (pages.take 10))
          (harvestMas (pages.take 10)) ocrLines bgl)
          (!(split_top_candidate_urls pages 10).1.isEmpty)
          (!(split_top_candidate_urls pages 10).2.isEmpty)).confidence_level := by
      simp [processImage]
    rw [hconf, h2]
    by_cases e1 : (split_top_candidate_urls pages 10).1.isEmpty <;>
      by_cases e2 : (split_top_candidate_urls pages 10).2.isEmpty <;>
        simp [e1, e2]

/-- Claim C4 — witness: the amended invariant applied to the concrete
no-candidate image of the counterexample (method none, one non-service
URL, confidence forced to very_low). -/
theorem C4_method_none_invariant_witness :
    (processImage trivialVal trivialMres trivialSearch none
      [some "https://example.org/x"] [] none).discogs_release_id = none ∧
    (processImage trivialVal trivialMres trivialSearch none
      [some "https://example.org/x"] [] none).confidence_level = "very_low" := by
  have h := C4_method_none_invariant trivialVal trivialMres trivialSearch none
    [some "https://example.org/x"] [] none (by decide)
  refine ⟨h.1, ?_⟩
  rw [h.2]
  decide

/-- Claim C3 — witness: the amended finalization rule applied to the
concrete oracle `c3val` (fallback release 1 kept, non-target-format
release 2 examined after it, status review_needed). -/
theorem C3_finalization_witness :
    (buildRow (resolvePasses c3val trivialMres trivialSearch [(1, "u1"), (2, "u2")] [] [] none)
      false false).discogs_release_id = some 1 ∧
    (buildRow (resolvePasses c3val trivialMres trivialSearch [(1, "u1"), (2, "u2")] [] [] none)
      false false).status = "review_needed" := by
  have h := C3_finalization c3val 1 2 "u1" "u2" "Vinyl, UK (not US)"
    "Not vinyl (formats: CD)" false (by decide) (by decide) (by decide)
    trivialMres trivialSearch [] none false false
  simpa using h

/-! ### http_client.http_get_with_retry (src/http_client.py lines 39-86)

The loop is modelled over the list of per-attempt outcomes of
`requests.get`: the k-th list entry is what the k-th request produced
(`none` a network exception, `some s` a response with status `s`), and
the list length is the `tries` bound.  Delays, jitter and the
`Retry-After` header only affect how long the loop sleeps, never whether
it retries, and are not modelled.  In every branch of the source the
attempt either returns the response (status outside 400-599), retries
when attempts remain, or re-raises the last error on the final attempt —
uniformly for 429/5xx/4xx/network errors.  The result is paired with the
number of requests issued. -/

/-- The five statuses the source lists as transient (line 47/93/109). -/
def isTransientStatus (s : Nat) : Bool :=
  s = 429 || s = 500 || s = 502 || s = 503 || s = 504

/-- `requests.Response.raise_for_status` raises exactly for 4xx/5xx. -/
def isErrorStatus (s : Nat) : Bool :=
  decide (400 ≤ s ∧ s < 600)

/-- An attempt outcome that makes the loop continue (or re-raise on the
last attempt): a network exception or an error status. -/
def oFails (o : Option Nat) : Bool :=
  match o with
  | none => true
  | some s => isErrorStatus s

/-- Embedding of `http_client.http_get_with_retry` over the per-attempt
outcome list; `rest.isEmpty` is the `attempt == tries` test. -/
def http_get_with_retry : List (Option Nat) → (Except (Option Nat) Nat) × Nat
  | [] => (Except.error none, 0)
  | o :: rest =>
    match o with
    | none =>
      if rest.isEmpty then (Except.error none, 1)
      else
        let r := http_get_with_retry rest
        (r.1, r.2 + 1)
    | some s =>
      if isErrorStatus s then
        if rest.isEmpty then (Except.error (some s), 1)
        else
          let r := http_get_with_retry rest
          (r.1, r.2 + 1)
      else (Except.ok s, 1)

/-- A failing attempt with attempts remaining recurses, adding one issued
request — uniformly for network errors and every 4xx/5xx status. -/
theorem http_get_with_retry_cons_fail (o : Option Nat) (rest : List (Option Nat))
    (ho : oFails o = true) (hne : rest.isEmpty = false) :
    http_get_with_retry (o :: rest) =
      ((http_get_with_retry rest).1, (http_get_with_retry rest).2 + 1) := by
  cases o with
  | none => simp [http_get_with_retry, hne]
  | some s =>
    have hs : isErrorStatus s = true := by simpa [oFails] using ho
    simp [http_get_with_retry, hs, hne]

/-- Claim C6 — counterexample to the claim as stated: a permanent 404
response does trigger a retry.  With outcomes `[404, 200]` the invoker
succeeds on the second request (two requests issued), whereas the claim
says a non-transient status fails without being retried. -/
theorem C6_counterexample :
    http_get_with_retry [some 404, some 200] = (Except.ok 200, 2) ∧
    isTransientStatus 404 = false := by
  refine ⟨rfl, by decide⟩

/-- Claim C6 — amended. Transient statuses 429/500/502/503/504 are retried
up to the attempt bound with the last error raised at exhaustion, as
claimed — but so is every other error status (permanent 4xx such as 404)
and every network exception: the except-handler retries all of them alike.
A request succeeds, ending the loop, exactly on a status outside 400-599.
Conjuncts: transient statuses are error statuses; a run whose attempts
all fail exhausts the list and raises the last outcome; a first
non-error-status response is returned at once, having issued exactly the
requests before and including it. -/
theorem C6_retry_classification :
    (∀ s : Nat, isTransientStatus s = true → isErrorStatus s = true) ∧
    (∀ (l : List (Option Nat)) (o : Option Nat),
      (∀ x ∈ l, oFails x = true) → oFails o = true →
      http_get_with_retry (l ++ [o]) = (Except.error o, l.length + 1)) ∧
    (∀ (l : List (Option Nat)) (s : Nat) (rest : List (Option Nat)),
      (∀ x ∈ l, oFails x = true) → isErrorStatus s = false →
      http_get_with_retry (l ++ some s :: rest) = (Except.ok s, l.length + 1)) := by
  refine ⟨?_, ?_, ?_⟩
  · intro s hs
    simp only [isTransientStatus, Bool.or_eq_true, decide_eq_true_eq] at hs
    rcases hs with ⟨⟨⟨h | h⟩ | h⟩ | h⟩ | h <;> subst h <;> decide
  · intro l o hl ho
    induction l with
    | nil =>
      cases o with
      | none => rfl
      | some s =>
        have hs : isErrorStatus s = true := by simpa [oFails] using ho
        simp [http_get_with_retry, hs]
    | cons x t ih =>
      have hx : oFails x = true := hl x (List.mem_cons_self _ _)
      have ht : ∀ y ∈ t, oFails y = true := fun y hy => hl y (List.mem_cons_of_mem _ hy)
      have hne : (t ++ [o]).isEmpty = false := by
        cases t <;> simp
      rw [List.cons_append, http_get_with_retry_cons_fail x _ hx hne, ih ht]
      simp
  · intro l s rest hl hs
    induction l with
    | nil =>
      simp [http_get_with_retry, hs]
    | cons x t ih =>
      have hx : oFails x = true := hl x (List.mem_cons_self _ _)
      have ht : ∀ y ∈ t, oFails y = true := fun y hy => hl y (List.mem_cons_of_mem _ hy)
      have hne : (t ++ some s :: rest).isEmpty = false := by
        cases t <;> simp
      rw [List.cons_append, http_get_with_retry_cons_fail x _ hx hne, ih ht]
      simp

/-- Claim C6 — witness: exhaustion over transient and permanent failures
mixed with a network exception raises the last error after four requests;
a 500 followed by a 200 succeeds with two requests. -/
theorem C6_retry_classification_witness :
    http_get_with_retry [some 503, some 404, none, some 429] =
      (Except.error (some 429), 4) ∧
    http_get_with_retry [some 500, some 200] = (Except.ok 200, 2) := by
  constructor
  · exact C6_retry_classification.2.1 [some 503, some 404, none] (some 429)
      (by decide) (by decide)
  · exact C6_retry_classification.2.2 [some 500] 200 [] (by decide) (by decide)

/-! ### EnsureInCollection (src/workflows.py, add_to_collection_and_organize
lines 376-399, with src/discogs_api.py discogs_get_instance_for_release
lines 389-416 and discogs_add_to_collection lines 194-206)

The remote collection is modelled as a list of instances.  The lookup
drains the paginated listing of one folder and returns the first instance
whose `basic_information.id` equals the release id.  The remote add
endpoint is modelled as the environment: it appends a fresh instance, or
answers with a conflict (HTTP 409 / "already in collection") when the
release is already present in any folder. -/

/-- One entry of the user's remote collection. -/
structure CollInstance where
  release_id : Nat
  instance_id : Nat
  folder_id : Nat
deriving DecidableEq, Repr

/-- Embedding of `discogs_get_instance_for_release`: scan the listing of
`folderId` for the first instance of `rid`; `(instance_id, folder_id)`
when found. -/
def discogs_get_instance_for_release (coll : List CollInstance) (rid : Nat)
    (folderId : Nat) : Option (Nat × Nat) :=
  match (coll.filter (fun i => i.folder_id = folderId)).find?
      (fun i => i.release_id = rid) with
  | some i => some (i.instance_id, i.folder_id)
  | none => none

/-- Environment model of the remote add endpoint behind
`discogs_add_to_collection`: a conflict (`Except.error`) when the release
is already in the collection, otherwise the new instance appended. -/
def discogs_add_to_collection (coll : List CollInstance) (rid : Nat)
    (newInstanceId : Nat) (folderId : Nat) : Except Unit (List CollInstance) :=
  if coll.any (fun i => i.release_id = rid) then Except.error ()
  else Except.ok (coll ++ [⟨rid, newInstanceId, folderId⟩])

/-- Outcome of one iteration of the add loop: the collection afterwards,
whether the iteration counted as success (`added += 1`), and how many add
calls were issued. -/
structure EnsureOutcome where
  coll : List CollInstance
  success : Bool
  addCalls : Nat
deriving DecidableEq, Repr

/-- The per-release body of `add_to_collection_and_organize` (lines
377-397): look up the release in the Uncategorized folder (id 1); if
found, no add call; otherwise add — a 409/"already" answer is caught and
counted as success. -/
def ensureInCollection (coll : List CollInstance) (rid : Nat)
    (newInstanceId : Nat) (addFolderId : Nat) : EnsureOutcome :=
  match discogs_get_instance_for_release coll rid 1 with
  | some _ => ⟨coll, true, 0⟩
  | none =>
    match discogs_add_to_collection coll rid newInstanceId addFolderId with
    | Except.ok coll2 => ⟨coll2, true, 1⟩
    | Except.error _ => ⟨coll, true, 1⟩

theorem get_instance_found (coll : List CollInstance) (rid : Nat)
    (h : ∃ i ∈ coll, i.release_id = rid ∧ i.folder_id = 1) :
    (discogs_get_instance_for_release coll rid 1).isSome = true := by
  obtain ⟨i, hi, hrid, hf⟩ := h
  unfold discogs_get_instance_for_release
  have hmem : i ∈ coll.filter (fun j => decide (j.folder_id = 1)) :=
    List.mem_filter.2 ⟨hi, by simp [hf]⟩
  have : ∃ j, (coll.filter (fun j => decide (j.folder_id = 1))).find?
      (fun j => decide (j.release_id = rid)) = some j := by
    rw [← Option.isSome_iff_exists]
    exact List.find?_isSome.2 ⟨i, hmem, by simp [hrid]⟩
  obtain ⟨j, hj⟩ := this
  simp [hj]

/-- Claim C7: EnsureInCollection is idempotent.  (1) When the intake
folder (folder 1) already holds an instance of `rid`, the operation
issues zero add calls, succeeds and leaves the collection unchanged.
(2) Hence running it twice from such a state leaves the number of
instances of `rid` unchanged (one stays one) and both runs succeed.
(3) When the lookup misses but the remote add answers with a conflict,
the single add call is still counted as success and the collection is
unchanged. -/
theorem C7_ensure_in_collection (coll : List CollInstance) (rid : Nat)
    (n1 n2 f : Nat) :
    ((∃ i ∈ coll, i.release_id = rid ∧ i.folder_id = 1) →
      ensureInCollection coll rid n1 f = ⟨coll, true, 0⟩) ∧
    ((∃ i ∈ coll, i.release_id = rid ∧ i.folder_id = 1) →
      (ensureInCollection (ensureInCollection coll rid n1 f).coll rid n2 f).coll = coll ∧
      (ensureInCollection coll rid n1 f).success = true ∧
      (ensureInCollection (ensureInCollection coll rid n1 f).coll rid n2 f).success = true ∧
      ((ensureInCollection (ensureInCollection coll rid n1 f).coll rid n2 f).coll.filter
          (fun i => i.release_id = rid)).length =
        (coll.filter (fun i => i.release_id = rid)).length) ∧
    (discogs_get_instance_for_release coll rid 1 = none →
      coll.any (fun i => i.release_id = rid) = true →
      ensureInCollection coll rid n1 f = ⟨coll, true, 1⟩) := by
  have hfound : (∃ i ∈ coll, i.release_id = rid ∧ i.folder_id = 1) →
      ensureInCollection coll rid n1 f = ⟨coll, true, 0⟩ := by
    intro h
    have hs := get_instance_found coll rid h
    unfold ensureInCollection
    cases hg : discogs_get_instance_for_release coll rid 1 with
    | some p => rfl
    | none => rw [hg] at hs; simp at hs
  refine ⟨hfound, ?_, ?_⟩
  · intro h
    have h1 := hfound h
    rw [h1]
    have hs2 := get_instance_found coll rid h
    have h2 : ensureInCollection coll rid n2 f = ⟨coll, true, 0⟩ := by
      unfold ensureInCollection
      cases hg : discogs_get_instance_for_release coll rid 1 with
      | some p => rfl
      | none => rw [hg] at hs2; simp at hs2
    rw [h2]
    exact ⟨rfl, rfl, rfl, rfl⟩
  · intro hmiss hconf
    unfold ensureInCollection discogs_add_to_collection
    rw [hmiss, hconf]
    rfl

/-- Claim C7 — witness: a collection already holding release 7 in folder 1
is untouched by a run (zero adds) and by a second run; and a collection
holding release 7 only in folder 5 triggers one conflicting add counted
as success. -/
theorem C7_ensure_in_collection_witness :
    ensureInCollection [⟨7, 101, 1⟩] 7 201 1 = ⟨[⟨7, 101, 1⟩], true, 0⟩ ∧
    ensureInCollection [⟨7, 101, 5⟩] 7 201 1 = ⟨[⟨7, 101, 5⟩], true, 1⟩ := by
  have h := C7_ensure_in_collection [⟨7, 101, 1⟩] 7 201 202 1
  have h2 := C7_ensure_in_collection [⟨7, 101, 5⟩] 7 201 202 1
  refine ⟨h.1 ⟨⟨7, 101, 1⟩, by simp⟩, h2.2.2 (by decide) (by decide)⟩

/-! ### The condition-update data-integrity guard
(src/workflows.py update_conditions_workflow lines 31-85 and
src/discogs_api.py discogs_list_all_collection_instances lines 458-541)

A raw listing item carries optional ids (Python falsiness: a missing key
or a zero id are both falsy) and its `notes` array of
`(field_id, value)` pairs. -/

/-- A raw item of the paginated folder-releases listing. -/
structure RawItem where
  release_id : Option Nat
  instance_id : Option Nat
  folder_id : Option Nat
  notes : List (Option Nat × Option String)
deriving DecidableEq, Repr

/-- The notes scan of the listing (lines 518-524): last matching note
wins, the media field checked before the sleeve field. -/
def condsFromNotes (mfid sfid : Nat) (notes : List (Option Nat × Option String)) :
    Option String × Option String :=
  notes.foldl
    (fun acc n =>
      if n.1 = some mfid then (n.2, acc.2)
      else if n.1 = some sfid then (acc.1, n.2)
      else acc)
    (none, none)

/-- An instance as returned by `discogs_list_all_collection_instances`. -/
structure ListedInstance where
  release_id : Nat
  instance_id : Nat
  folder_id : Nat
  media_condition : Option String
  sleeve_condition : Option String
deriving DecidableEq, Repr

/-- Embedding of the per-folder item loop of
`discogs_list_all_collection_instances` (lines 490-532): items with falsy
ids are skipped, and an item whose instance id equals its release id is
skipped (the malformed-listing guard at lines 504-511). -/
def discogs_list_all_collection_instances (mfid sfid iterFolder : Nat) :
    List RawItem → List ListedInstance
  | [] => []
  | it :: t =>
    let rest := discogs_list_all_collection_instances mfid sfid iterFolder t
    match it.release_id, it.instance_id with
    | some rid, some iid =>
      if rid = 0 ∨ iid = 0 then rest
      else if iid = rid then rest
      else
        let fid := match it.folder_id with
          | some f => if f ≠ 0 then f else iterFolder
          | none => iterFolder
        let conds := condsFromNotes mfid sfid it.notes
        ⟨rid, iid, fid, conds.1, conds.2⟩ :: rest
    | _, _ => rest

/-- Python nullness/blankness test on a condition value
(`not cond or cond.strip() == ""`). -/
def condNeedsDefault (c : Option String) : Bool :=
  match c with
  | none => true
  | some s => pyStrip s = ""

/-- The update loop of `update_conditions_workflow` (lines 47-80): emit
the `(folder_id, release_id, instance_id)` of every field-update
invocation.  The loop re-checks truthy ids and skips an instance whose
instance id equals its release id. -/
def update_conditions_workflow : List ListedInstance → List (Nat × Nat × Nat)
  | [] => []
  | inst :: t =>
    let rest := update_conditions_workflow t
    if condNeedsDefault inst.media_condition || condNeedsDefault inst.sleeve_condition then
      if inst.instance_id = 0 ∨ inst.release_id = 0 ∨ inst.folder_id = 0 then rest
      else if inst.instance_id = inst.release_id then rest
      else (inst.folder_id, inst.release_id, inst.instance_id) :: rest
    else rest

theorem listed_instance_guard (mfid sfid iterFolder : Nat) (items : List RawItem)
    (inst : ListedInstance)
    (h : inst ∈ discogs_list_all_collection_instances mfid sfid iterFolder items) :
    inst.instance_id ≠ inst.release_id := by
  induction items with
  | nil => simp [discogs_list_all_collection_instances] at h
  | cons it t ih =>
    simp only [discogs_list_all_collection_instances] at h
    cases hr : it.release_id with
    | none => rw [hr] at h; exact ih h
    | some rid =>
      cases hi : it.instance_id with
      | none => rw [hr, hi] at h; exact ih h
      | some iid =>
        rw [hr, hi] at h
        dsimp only at h
        by_cases hz : rid = 0 ∨ iid = 0
        · rw [if_pos hz] at h
          exact ih h
        · rw [if_neg hz] at h
          by_cases heq : iid = rid
          · rw [if_pos heq] at h
            exact ih h
          · rw [if_neg heq] at h
            rcases List.mem_cons.1 h with rfl | hmem
            · simpa using heq
            · exact ih hmem

/-- Claim C8: the data-integrity guard.  (1) Every instance emitted by the
collection listing has distinct instance and release ids — an aliased
item is filtered out when listing.  (2) Every field-update invocation of
the condition-update loop targets an instance whose instance id differs
from its release id — the loop checks again.  Hence for an instance with
`instance_id = release_id`, zero field-update calls are performed. -/
theorem C8_integrity_guard (mfid sfid iterFolder : Nat) (items : List RawItem)
    (insts : List ListedInstance) :
    (∀ inst ∈ discogs_list_all_collection_instances mfid sfid iterFolder items,
      inst.instance_id ≠ inst.release_id) ∧
    (∀ call ∈ update_conditions_workflow insts, call.2.2 ≠ call.2.1) := by
  refine ⟨fun inst h => listed_instance_guard mfid sfid iterFolder items inst h, ?_⟩
  intro call hc
  induction insts with
  | nil => simp [update_conditions_workflow] at hc
  | cons inst t ih =>
    simp only [update_conditions_workflow] at hc
    by_cases hn : (condNeedsDefault inst.media_condition ||
        condNeedsDefault inst.sleeve_condition) = true
    · rw [if_pos hn] at hc
      by_cases hz : inst.instance_id = 0 ∨ inst.release_id = 0 ∨ inst.folder_id = 0
      · rw [if_pos hz] at hc
        exact ih hc
      · rw [if_neg hz] at hc
        by_cases heq : inst.instance_id = inst.release_id
        · rw [if_pos heq] at hc
          exact ih hc
        · rw [if_neg heq] at hc
          rcases List.mem_cons.1 hc with rfl | hmem
          · simpa using heq
          · exact ih hmem
    · rw [if_neg hn] at hc
      exact ih hc

/-- Claim C8 — witness: a malformed raw item (`instance_id = release_id =
9`) is dropped by the listing, and an aliased listed instance produces no
update call while a well-formed null-condition one does. -/
theorem C8_integrity_guard_witness :
    discogs_list_all_collection_instances 1 2 4
      [⟨some 9, some 9, some 4, []⟩] = [] ∧
    update_conditions_workflow
      [⟨9, 9, 4, none, none⟩, ⟨7, 101, 4, none, none⟩] = [(4, 7, 101)] ∧
    (4, 7, 101).2.2 ≠ (4, 7, 101).2.1 := by
  refine ⟨by decide, by decide,
    (C8_integrity_guard 1 2 4 [⟨some 9, some 9, some 4, []⟩]
      [⟨9, 9, 4, none, none⟩, ⟨7, 101, 4, none, none⟩]).2 (4, 7, 101) (by decide)⟩

/-! ### spotify_api.spotify_search_album (src/spotify_api.py lines 68-146)
and clean_artist_name_for_spotify (lines 18-30)

A Spotify search result album is its id, name, artist names and release
date; the search response is the list of result albums in rank order. -/

/-- One album from the Spotify album-search response. -/
structure SpAlbum where
  id : String
  name : String
  artists : List String
  release_date : String
deriving DecidableEq, Repr

/-- Embedding of `clean_artist_name_for_spotify`:
`re.sub(r'\s*\(\d+\)\s*$', '', artist_name).strip()`, with a falsy (empty)
input returned unchanged. -/
def clean_artist_name_for_spotify (artist_name : String) : String :=
  if artist_name = "" then artist_name
  else
    let rev := artist_name.data.reverse
    let r1 := rev.dropWhile isPySpace
    let core :=
      match r1 with
      | ')' :: t =>
        let ds := t.takeWhile Char.isDigit
        match ds, t.drop ds.length with
        | _ :: _, '(' :: t3 => (t3.dropWhile isPySpace).reverse
        | _, _ => artist_name.data
      | _ => artist_name.data
    pyStrip (String.mk core)

/-- Python `int(...)` on a string: strip whitespace, optional sign, at
least one digit; `none` models the `ValueError` path. -/
def parseIntPy (s : String) : Option Int :=
  let t := ((s.data.dropWhile isPySpace).reverse.dropWhile isPySpace).reverse
  match t with
  | '-' :: ds => if ds ≠ [] ∧ ds.all Char.isDigit then some (-(digitsVal ds : Int)) else none
  | '+' :: ds => if ds ≠ [] ∧ ds.all Char.isDigit then some ((digitsVal ds : Int)) else none
  | ds => if ds ≠ [] ∧ ds.all Char.isDigit then some ((digitsVal ds : Int)) else none

/-- The album's release year: `int(release_date.split("-")[0])` guarded by
`if release_date:`, with parse failures skipped (lines 107-115). -/
def yearOf (a : SpAlbum) : Option Int :=
  if a.release_date = "" then none
  else parseIntPy (String.mk (breakAt '-' a.release_date.data).1)

/-- One step of heuristic 2's closest-year fold (lines 104-116):
`if diff <= 2 and diff < best_diff`, starting from `best_diff = inf`. -/
def bestByYearStep (dy : Int) (acc : Option SpAlbum × Option Nat) (a : SpAlbum) :
    Option SpAlbum × Option Nat :=
  match yearOf a with
  | none => acc
  | some y =>
    let diff := (y - dy).natAbs
    let better := match acc.2 with
      | none => true
      | some bd => decide (diff < bd)
    if diff ≤ 2 ∧ better = true then (some a, some diff) else acc

/-- Heuristic 2: the exact match whose year is within two years of the
catalog year and closest to it, first-seen winning ties. -/
def bestByYear (ems : List SpAlbum) (dy : Int) : Option SpAlbum :=
  (ems.foldl (bestByYearStep dy) (none, none)).1

/-- Keyword containment used by heuristic 3. -/
def strContainsAny (s : String) (kws : List String) : Bool :=
  kws.any (fun k => strContains s k)

/-- Python truthiness of the optional catalog year (`and discogs_year`). -/
def yearTruthy (y : Option Int) : Bool :=
  match y with
  | some v => v ≠ 0
  | none => false

/-- The exact-match test of heuristic 1 (lines 89-97): case-insensitive
equality on the album title and membership of the cleaned lowered artist
in the album's artist names. -/
def exactAlbumMatch (album_title : String) (cl : String) (a : SpAlbum) : Bool :=
  lowerStr a.name = lowerStr album_title && strMem cl (a.artists.map lowerStr)

/-- Embedding of `spotify_search_album` over the search response: exact
matches first (single match returned; ties broken by year, then by the
deluxe-edition heuristic, then by first exact match) — and, when no
result matches exactly, the FIRST search result (line 142), not a miss. -/
def spotify_search_album (album_title artist_name : String) (discogs_year : Option Int)
    (albums : List SpAlbum) : Option SpAlbum :=
  if albums.isEmpty then none
  else
    let cl := lowerStr (clean_artist_name_for_spotify artist_name)
    let ems := albums.filter (exactAlbumMatch album_title cl)
    if ems.length = 1 then ems.head?
    else
      let byYear :=
        if ems.length > 1 ∧ yearTruthy discogs_year = true then
          bestByYear ems (discogs_year.getD 0)
        else none
      match byYear with
      | some b => some b
      | none =>
        if ems.isEmpty then albums.head?
        else
          let dl := lowerStr album_title
          let hasDeluxe := strContainsAny dl ["deluxe", "special", "expanded", "remastered"]
          let pick :=
            if hasDeluxe then
              ems.find? (fun a => strContainsAny (lowerStr a.name)
                ["deluxe", "special", "expanded"])
            else
              ems.find? (fun a => !(strContainsAny (lowerStr a.name)
                ["deluxe", "special edition", "expanded"]))
          match pick with
          | some a => some a
          | none => ems.head?

/-- The caller's branch in `build_spotify_playlists` (lines 203-228 of
src/spotify_playlists.py): the per-track fallback runs iff the album
search produced no truthy album id. -/
def albumMatched (album_title artist_name : String) (discogs_year : Option Int)
    (albums : List SpAlbum) : Bool :=
  match spotify_search_album album_title artist_name discogs_year albums with
  | some a => a.id ≠ ""
  | none => false

theorem bestByYearStep_fst (dy : Int) (acc : Option SpAlbum × Option Nat) (a : SpAlbum) :
    (bestByYearStep dy acc a).1 = acc.1 ∨ (bestByYearStep dy acc a).1 = some a := by
  unfold bestByYearStep
  cases yearOf a with
  | none => exact Or.inl rfl
  | some y =>
    dsimp only
    split
    · exact Or.inr rfl
    · exact Or.inl rfl

theorem bestByYear_foldl_mem (dy : Int) (l : List SpAlbum)
    (acc : Option SpAlbum × Option Nat) :
    (l.foldl (bestByYearStep dy) acc).1 = acc.1 ∨
      ∃ b ∈ l, (l.foldl (bestByYearStep dy) acc).1 = some b := by
  induction l generalizing acc with
  | nil => exact Or.inl rfl
  | cons a t ih =>
    rw [List.foldl_cons]
    rcases ih (bestByYearStep dy acc a) with h | ⟨b, hb, hres⟩
    · rcases bestByYearStep_fst dy acc a with h2 | h2
      · exact Or.inl (h.trans h2)
      · exact Or.inr ⟨a, List.mem_cons_self _ _, h.trans h2⟩
    · exact Or.inr ⟨b, List.mem_cons_of_mem _ hb, hres⟩

theorem bestByYear_mem (l : List SpAlbum) (dy : Int) (b : SpAlbum)
    (h : bestByYear l dy = some b) : b ∈ l := by
  rcases bestByYear_foldl_mem dy l (none, none) with h2 | ⟨c, hc, hres⟩
  · rw [bestByYear, h2] at h
    exact absurd h (by simp)
  · rw [bestByYear, hres] at h
    obtain rfl := Option.some.inj h
    exact hc

/-- Claim C9 — counterexample to the claim as stated: with a non-empty
search response containing no exact match, `spotify_search_album` returns
the first search result (line 142), so the album IS album-matched and the
per-track fallback is NOT used — the claim says the album must not be
album-matched in this situation. -/
theorem C9_counterexample :
    spotify_search_album "Abbey Road" "The Beatles" none
      [⟨"sp1", "Let It Be", ["The Beatles"], "1970-05-08"⟩] =
      some ⟨"sp1", "Let It Be", ["The Beatles"], "1970-05-08"⟩ ∧
    exactAlbumMatch "Abbey Road" (lowerStr (clean_artist_name_for_spotify "The Beatles"))
      ⟨"sp1", "Let It Be", ["The Beatles"], "1970-05-08"⟩ = false ∧
    albumMatched "Abbey Road" "The Beatles" none
      [⟨"sp1", "Let It Be", ["The Beatles"], "1970-05-08"⟩] = true := by
  refine ⟨by decide, by decide, by decide⟩

/-- Claim C9 — amended. The album search returns no album only when the
search response is empty — that is the only case in which the per-track
fallback runs (for a response whose first album has a truthy id).  When
some result matches exactly — title equal case-insensitively AND the
catalog artist, with a trailing Discogs-style numeric disambiguator like
" (2)" stripped, among the result's artists — the returned album is one
of those exact matches.  When no result matches exactly but the response
is non-empty, the first search result is returned anyway. -/
theorem C9_album_matching (album_title artist_name : String) (discogs_year : Option Int)
    (albums : List SpAlbum) :
    (spotify_search_album album_title artist_name discogs_year albums = none ↔
      albums = []) ∧
    (albums.filter (exactAlbumMatch album_title
        (lowerStr (clean_artist_name_for_spotify artist_name))) ≠ [] →
      ∃ b, spotify_search_album album_title artist_name discogs_year albums = some b ∧
        b ∈ albums.filter (exactAlbumMatch album_title
          (lowerStr (clean_artist_name_for_spotify artist_name)))) ∧
    (albums.filter (exactAlbumMatch album_title
        (lowerStr (clean_artist_name_for_spotify artist_name))) = [] → albums ≠ [] →
      spotify_search_album album_title artist_name discogs_year albums = albums.head?) := by
  set cl := lowerStr (clean_artist_name_for_spotify artist_name) with hcl
  set ems := albums.filter (exactAlbumMatch album_title cl) with hems
  have hmatch : albums ≠ [] → ems ≠ [] →
      ∃ b, spotify_search_album album_title artist_name discogs_year albums = some b ∧
        b ∈ ems := by
    intro halb hne
    have hae : albums.isEmpty = false := by
      cases albums with
      | nil => exact absurd rfl halb
      | cons x t => rfl
    unfold spotify_search_album
    rw [hae]
    simp only [Bool.false_eq_true, if_false, ← hcl, ← hems]
    by_cases h1 : ems.length = 1
    · rw [if_pos h1]
      cases hca : ems with
      | nil => exact absurd hca hne
      | cons e es => exact ⟨e, rfl, List.mem_cons_self _ _⟩
    · rw [if_neg h1]
      cases hby : (if ems.length > 1 ∧ yearTruthy discogs_year = true then
          bestByYear ems (discogs_year.getD 0) else none) with
      | some b =>
        refine ⟨b, rfl, ?_⟩
        by_cases hc : ems.length > 1 ∧ yearTruthy discogs_year = true
        · rw [if_pos hc] at hby
          exact bestByYear_mem ems (discogs_year.getD 0) b hby
        · rw [if_neg hc] at hby
          exact absurd hby (by simp)
      | none =>
        have hee : ems.isEmpty = false := by
          cases hca2 : ems with
          | nil => exact absurd hca2 hne
          | cons x t => rfl
        rw [hee]
        simp only [Bool.false_eq_true, if_false]
        cases hpick : (if strContainsAny (lowerStr album_title)
            ["deluxe", "special", "expanded", "remastered"] then
            ems.find? (fun a => strContainsAny (lowerStr a.name)
              ["deluxe", "special", "expanded"])
          else
            ems.find? (fun a => !(strContainsAny (lowerStr a.name)
              ["deluxe", "special edition", "expanded"]))) with
        | some a =>
          refine ⟨a, rfl, ?_⟩
          by_cases hc : strContainsAny (lowerStr album_title)
              ["deluxe", "special", "expanded", "remastered"] = true
          · rw [if_pos hc] at hpick
            exact List.mem_of_find?_eq_some hpick
          · rw [if_neg hc] at hpick
            exact List.mem_of_find?_eq_some hpick
        | none =>
          cases hca : ems with
          | nil => exact absurd hca hne
          | cons e es => exact ⟨e, rfl, List.mem_cons_self _ _⟩
  have hmiss : ems = [] → albums ≠ [] →
      spotify_search_album album_title artist_name discogs_year albums = albums.head? := by
    intro he halb
    have hae : albums.isEmpty = false := by
      cases albums with
      | nil => exact absurd rfl halb
      | cons x t => rfl
    unfold spotify_search_album
    rw [hae]
    simp only [Bool.false_eq_true, if_false, ← hcl, ← hems, he]
    norm_num
  refine ⟨?_, ?_, hmiss⟩
  · constructor
    · intro h
      by_contra halb
      by_cases hne : ems = []
      · rw [hmiss hne halb] at h
        cases albums with
        | nil => exact absurd rfl halb
        | cons x t => simp at h
      · obtain ⟨b, hb, _⟩ := hmatch halb hne
        rw [hb] at h
        exact absurd h (by simp)
    · intro h
      subst h
      rfl
  · intro hne
    have halb : albums ≠ [] := by
      intro h
      subst h
      exact hne (by simp [hems])
    exact hmatch halb hne

/-- Claim C9 — witness: the amended statement evaluated on a concrete
response — an exact match chosen among mixed results for artist
"Kansas (2)" (disambiguator stripped), an empty response forcing the
per-track fallback, and the first-result acceptance without exact match. -/
theorem C9_album_matching_witness :
    spotify_search_album "Point of Know Return" "Kansas (2)" none
      [⟨"sp9", "Other", ["Kansas"], "1977"⟩,
       ⟨"sp3", "Point Of Know Return", ["Kansas"], "1977-10-11"⟩] =
      some ⟨"sp3", "Point Of Know Return", ["Kansas"], "1977-10-11"⟩ ∧
    spotify_search_album "Point of Know Return" "Kansas (2)" none [] = none := by
  have h := C9_album_matching "Point of Know Return" "Kansas (2)" none
    [⟨"sp9", "Other", ["Kansas"], "1977"⟩,
     ⟨"sp3", "Point Of Know Return", ["Kansas"], "1977-10-11"⟩]
  have h2 := C9_album_matching "Point of Know Return" "Kansas (2)" none []
  obtain ⟨b, hb, hmem⟩ := h.2.1 (by decide)
  have hflt : List.filter (exactAlbumMatch "Point of Know Return"
      (lowerStr (clean_artist_name_for_spotify "Kansas (2)")))
      [⟨"sp9", "Other", ["Kansas"], "1977"⟩,
       ⟨"sp3", "Point Of Know Return", ["Kansas"], "1977-10-11"⟩] =
      [⟨"sp3", "Point Of Know Return", ["Kansas"], "1977-10-11"⟩] := by decide
  rw [hflt] at hmem
  have hbval : b = ⟨"sp3", "Point Of Know Return", ["Kansas"], "1977-10-11"⟩ := by
    simpa using hmem
  refine ⟨hbval ▸ hb, h2.1.2 rfl⟩

end VinylList
